import Mathlib

/-!
Verification of the jito-rust-rpc SDK (src/src/lib.rs).

The development shallowly embeds the SDK's pure logic:
* `Json` models `serde_json::Value` (numbers are modelled as integers,
  covering the i64/u64 cases; IEEE floats are outside the embedding and the
  round-trip claim itself carves numeric text representation out);
* `Json.prettyVal` models `serde_json::to_string_pretty` (the
  `PrettyJsonValue` `Display` implementation);
* `Json.parse` models parsing the printed text back (`serde_json::from_str`);
* `JitoJsonRpcSDK` request construction, bundle validation, tip-account
  selection, and the `GrpcClient::send_bundle` retry loop are embedded as
  pure functions over explicit environments.
-/

/-- Left curly bracket character. -/
def lbraceChar : Char := '\x7b'

/-- Right curly bracket character. -/
def rbraceChar : Char := '\x7d'

/-- Model of `serde_json::Value`.  Objects are association lists in emission
order; numbers are integers (the `i64`/`u64` cases of `serde_json::Number`). -/
inductive Json where
  | null
  | bool (b : Bool)
  | num (n : Int)
  | str (s : List Char)
  | arr (elems : List Json)
  | obj (members : List (List Char × Json))

namespace Json

/-- `value["key"]` on a `serde_json::Value`: looks a key up in an object,
yielding `Null` when the key is absent or the value is not an object. -/
def index (j : Json) (key : List Char) : Json :=
  match j with
  | .obj kvs =>
    match kvs.find? (fun kv => kv.1 = key) with
    | some kv => kv.2
    | none => .null
  | _ => .null

/-- `Value::as_array`. -/
def asArray : Json → Option (List Json)
  | .arr xs => some xs
  | _ => none

/-- `Value::as_str`. -/
def asStr : Json → Option (List Char)
  | .str s => some s
  | _ => none

end Json

/-- The two-space indentation prefix of `serde_json`'s pretty formatter at
nesting depth `n`. -/
def indentChars (n : Nat) : List Char := List.replicate (2 * n) ' '

/-- Decimal digits of a natural number, most significant first
(the `itoa` rendering used by `serde_json`). -/
def natChars (n : Nat) : List Char :=
  if _h : n < 10 then [Nat.digitChar n]
  else natChars (n / 10) ++ [Nat.digitChar (n % 10)]
  termination_by n
  decreasing_by exact Nat.div_lt_self (by omega) (by omega)

/-- Decimal rendering of an integer. -/
def intChars : Int → List Char
  | Int.ofNat m => natChars m
  | Int.negSucc m => '-' :: natChars (m + 1)

/-- `serde_json`'s escaping of one character inside a JSON string literal:
quote, backslash and the five named control escapes get two-character
escapes, the remaining control characters get `\u00XX`, everything else is
emitted verbatim. -/
def escapeChar (c : Char) : List Char :=
  if c = '"' then ['\\', '"']
  else if c = '\\' then ['\\', '\\']
  else if c = '\x08' then ['\\', 'b']
  else if c = '\t' then ['\\', 't']
  else if c = '\n' then ['\\', 'n']
  else if c = '\x0c' then ['\\', 'f']
  else if c = '\r' then ['\\', 'r']
  else if c.toNat < 32 then
    ['\\', 'u', '0', '0', Nat.digitChar (c.toNat / 16), Nat.digitChar (c.toNat % 16)]
  else [c]

/-- Escape a whole string body. -/
def escapeStr (s : List Char) : List Char := (s.map escapeChar).flatten

mutual

/-- `serde_json::to_string_pretty` of a value placed at nesting depth `n`
(two-space indentation, members on their own lines). -/
def Json.prettyVal : Nat → Json → List Char
  | _, Json.null => ['n', 'u', 'l', 'l']
  | _, Json.bool true => ['t', 'r', 'u', 'e']
  | _, Json.bool false => ['f', 'a', 'l', 's', 'e']
  | _, Json.num i => intChars i
  | _, Json.str s => '"' :: (escapeStr s ++ ['"'])
  | _, Json.arr [] => ['[', ']']
  | n, Json.arr (x :: xs) =>
    '[' :: '\n' :: (Json.prettyItems (n + 1) x xs ++ '\n' :: (indentChars n ++ [']']))
  | _, Json.obj [] => [lbraceChar, rbraceChar]
  | n, Json.obj (kv :: kvs) =>
    lbraceChar :: '\n' ::
      (Json.prettyMembers (n + 1) kv kvs ++ '\n' :: (indentChars n ++ [rbraceChar]))
  termination_by n j => sizeOf j
  decreasing_by all_goals (simp_wf <;> omega)

/-- The comma-and-newline separated, indented rendering of the elements of a
non-empty array at depth `n`. -/
def Json.prettyItems : Nat → Json → List Json → List Char
  | n, x, [] => indentChars n ++ Json.prettyVal n x
  | n, x, y :: ys =>
    indentChars n ++ (Json.prettyVal n x ++ ',' :: '\n' :: Json.prettyItems n y ys)
  termination_by n x xs => sizeOf x + sizeOf xs
  decreasing_by all_goals (simp_wf <;> omega)

/-- The rendering of the members of a non-empty object at depth `n`. -/
def Json.prettyMembers : Nat → (List Char × Json) → List (List Char × Json) → List Char
  | n, (k, v), [] =>
    indentChars n ++ ('"' :: (escapeStr k ++ '"' :: ':' :: ' ' :: Json.prettyVal n v))
  | n, (k, v), kv2 :: kvs =>
    indentChars n ++
      ('"' :: (escapeStr k ++ '"' :: ':' :: ' ' :: Json.prettyVal n v)) ++
      ',' :: '\n' :: Json.prettyMembers n kv2 kvs
  termination_by n kv kvs => sizeOf kv + sizeOf kvs
  decreasing_by all_goals (simp_wf <;> omega)

end

/-- `PrettyJsonValue`'s `Display` implementation: pretty-print at top level. -/
def prettyDisplay (v : Json) : List Char := Json.prettyVal 0 v

mutual

/-- Node-count measure used to bound the parser fuel. -/
def Json.size : Json → Nat
  | .null => 1
  | .bool _ => 1
  | .num _ => 1
  | .str _ => 1
  | .arr xs => 1 + Json.sizeItems xs
  | .obj kvs => 1 + Json.sizeMembers kvs

/-- Sum of sizes of array elements, one extra unit per element. -/
def Json.sizeItems : List Json → Nat
  | [] => 0
  | x :: xs => 1 + Json.size x + Json.sizeItems xs

/-- Sum of sizes of object member values, one extra unit per member. -/
def Json.sizeMembers : List (List Char × Json) → Nat
  | [] => 0
  | kv :: kvs => 1 + Json.size kv.2 + Json.sizeMembers kvs

end

/-- JSON insignificant whitespace. -/
def isWsChar (c : Char) : Bool :=
  c == ' ' || c == '\n' || c == '\t' || c == '\r'

/-- Drop leading insignificant whitespace. -/
def skipWs : List Char → List Char
  | [] => []
  | c :: cs => if isWsChar c then skipWs cs else c :: cs

/-- Value of one hexadecimal digit. -/
def hexDigitVal (c : Char) : Option Nat :=
  if '0' ≤ c ∧ c ≤ '9' then some (c.toNat - 48)
  else if 'a' ≤ c ∧ c ≤ 'f' then some (c.toNat - 87)
  else if 'A' ≤ c ∧ c ≤ 'F' then some (c.toNat - 55)
  else none

/-- Decoded value of a single-character escape sequence. -/
def escCharVal (e : Char) : Option Char :=
  if e = '"' then some '"'
  else if e = '\\' then some '\\'
  else if e = '/' then some '/'
  else if e = 'b' then some '\x08'
  else if e = 'f' then some '\x0c'
  else if e = 'n' then some '\n'
  else if e = 'r' then some '\r'
  else if e = 't' then some '\t'
  else none

/-- Parse the body of a JSON string literal after its opening quote,
returning the decoded characters and the remainder after the closing
quote. -/
def parseStringRest : List Char → Option (List Char × List Char)
  | [] => none
  | c :: rest =>
    if c = '"' then some ([], rest)
    else if c = '\\' then
      match rest with
      | [] => none
      | e :: rest2 =>
        if e = 'u' then
          match rest2 with
          | h1 :: h2 :: h3 :: h4 :: rest3 =>
            match hexDigitVal h1, hexDigitVal h2, hexDigitVal h3, hexDigitVal h4 with
            | some a, some b, some c2, some d =>
              (parseStringRest rest3).map
                (fun p => (Char.ofNat (a * 4096 + b * 256 + c2 * 16 + d) :: p.1, p.2))
            | _, _, _, _ => none
          | _ => none
        else
          match escCharVal e with
          | some d => (parseStringRest rest2).map (fun p => (d :: p.1, p.2))
          | none => none
    else (parseStringRest rest).map (fun p => (c :: p.1, p.2))

/-- Numeric value of a decimal digit character. -/
def digitVal (c : Char) : Nat := c.toNat - 48

/-- Value of a most-significant-first decimal digit string. -/
def digitsVal (ds : List Char) : Nat := ds.foldl (fun a c => 10 * a + digitVal c) 0

/-- `true` when the input cannot extend a preceding decimal literal. -/
def stopsNum : List Char → Bool
  | [] => true
  | c :: _ => !c.isDigit

mutual

/-- Fuel-indexed recursive-descent JSON value parser: returns the value and
the unconsumed remainder.  Leading whitespace is skipped. -/
def parseValue : Nat → List Char → Option (Json × List Char)
  | 0, _ => none
  | fuel + 1, input =>
    match skipWs input with
    | [] => none
    | c :: rest =>
      if c = 'n' then
        match rest with
        | 'u' :: 'l' :: 'l' :: r => some (.null, r)
        | _ => none
      else if c = 't' then
        match rest with
        | 'r' :: 'u' :: 'e' :: r => some (.bool true, r)
        | _ => none
      else if c = 'f' then
        match rest with
        | 'a' :: 'l' :: 's' :: 'e' :: r => some (.bool false, r)
        | _ => none
      else if c = '"' then
        (parseStringRest rest).map (fun p => (.str p.1, p.2))
      else if c = '[' then
        match skipWs rest with
        | [] => none
        | r0 :: r =>
          if r0 = ']' then some (.arr [], r)
          else (parseItems fuel rest).map (fun p => (.arr p.1, p.2))
      else if c = lbraceChar then
        match skipWs rest with
        | r0 :: r =>
          if r0 = rbraceChar then some (.obj [], r)
          else (parseMembers fuel rest).map (fun p => (.obj p.1, p.2))
        | [] => none
      else if c = '-' then
        let ds := rest.takeWhile Char.isDigit
        if ds.isEmpty then none
        else some (.num (-(digitsVal ds : Int)), rest.dropWhile Char.isDigit)
      else if c.isDigit then
        some (.num (digitsVal ((c :: rest).takeWhile Char.isDigit)),
              (c :: rest).dropWhile Char.isDigit)
      else none

/-- Parse the comma-separated elements of a non-empty array up to and
including the closing bracket. -/
def parseItems : Nat → List Char → Option (List Json × List Char)
  | 0, _ => none
  | fuel + 1, input =>
    match parseValue fuel input with
    | some (v, r1) =>
      match skipWs r1 with
      | [] => none
      | s0 :: r2 =>
        if s0 = ',' then
          match parseItems fuel r2 with
          | some (vs, r3) => some (v :: vs, r3)
          | none => none
        else if s0 = ']' then some ([v], r2)
        else none
    | none => none

/-- Parse the comma-separated members of a non-empty object up to and
including the closing brace. -/
def parseMembers : Nat → List Char → Option (List (List Char × Json) × List Char)
  | 0, _ => none
  | fuel + 1, input =>
    match skipWs input with
    | [] => none
    | q :: r0 =>
      if q = '"' then
        match parseStringRest r0 with
        | some (k, r1) =>
          match skipWs r1 with
          | [] => none
          | s1 :: r2 =>
            if s1 = ':' then
              match parseValue fuel r2 with
              | some (v, r3) =>
                match skipWs r3 with
                | [] => none
                | s2 :: r4 =>
                  if s2 = ',' then
                    match parseMembers fuel r4 with
                    | some (kvs, r5) => some ((k, v) :: kvs, r5)
                    | none => none
                  else if s2 = rbraceChar then some ([(k, v)], r4)
                  else none
              | none => none
            else none
        | none => none
      else none

end

/-- Parsing a full JSON document (`serde_json::from_str` into a `Value`):
the parsed value, provided only whitespace trails it. -/
def Json.parse (s : List Char) : Option Json :=
  match parseValue (2 * s.length + 2) s with
  | some (v, rest) => if (skipWs rest).isEmpty then some v else none
  | none => none

/-! ### SDK embedding (src/src/lib.rs) -/

/-- A JSON-RPC request as assembled by `JitoJsonRpcSDK::send_request`: the
URL posted to, the content type header, and the JSON body.  The model
returns the request that would be posted; a returned error means no request
is made. -/
structure HttpRequest where
  url : List Char
  contentType : List Char
  body : Json

/-- Observable client state of `JitoJsonRpcSDK`: the base URL, the optional
attribution uuid, and whether the gRPC transport has been enabled
(`grpc_client.is_some()`). -/
structure JitoJsonRpcSDK where
  base_url : List Char
  uuid : Option (List Char)
  grpc_enabled : Bool

/-- `JitoJsonRpcSDK::send_request`: the request posted for an endpoint,
method and optional params — the JSON-RPC envelope with `jsonrpc = "2.0"`,
`id = 1`, and `params` defaulting to the empty array. -/
def JitoJsonRpcSDK.send_request (sdk : JitoJsonRpcSDK) (endpoint : List Char)
    (method : List Char) (params : Option Json) : HttpRequest :=
  { url := sdk.base_url ++ endpoint
    contentType := "application/json".data
    body := Json.obj
      [("jsonrpc".data, Json.str "2.0".data),
       ("id".data, Json.num 1),
       ("method".data, Json.str method),
       ("params".data, params.getD (Json.arr []))] }

/-- The `/bundles` endpoint with the client's attribution uuid appended when
set (shared by `get_tip_accounts` and `get_bundle_statuses`). -/
def JitoJsonRpcSDK.bundlesEndpoint (sdk : JitoJsonRpcSDK) : List Char :=
  match sdk.uuid with
  | some uuid => "/bundles?uuid=".data ++ uuid
  | none => "/bundles".data

/-- `JitoJsonRpcSDK::get_bundle_statuses`: the JSON-RPC request it posts. -/
def JitoJsonRpcSDK.get_bundle_statuses (sdk : JitoJsonRpcSDK)
    (bundle_uuids : List (List Char)) : HttpRequest :=
  sdk.send_request sdk.bundlesEndpoint "getBundleStatuses".data
    (some (Json.arr [Json.arr (bundle_uuids.map Json.str)]))

/-- `JitoJsonRpcSDK::get_random_tip_account`, applied to the tip-accounts
response body; the random draw of `SliceRandom::choose` over a non-empty
slice is modelled by an arbitrary index `pick` reduced modulo the array
length. -/
def JitoJsonRpcSDK.get_random_tip_account (resp : Json) (pick : Nat) :
    Except (List Char) (List Char) :=
  match (resp.index "result".data).asArray with
  | none => .error "Failed to parse tip accounts as array".data
  | some tipAccounts =>
    if tipAccounts.isEmpty then .error "No tip accounts available".data
    else
      match tipAccounts[pick % tipAccounts.length]? with
      | none => .error "Failed to choose random tip account".data
      | some account =>
        match account.asStr with
        | none => .error "Failed to parse tip account as string".data
        | some s => .ok s

/-- `JitoJsonRpcSDK::send_bundle` (JSON-RPC path): the guard
`Some(Value::Array(outer_array)) if outer_array.len() >= 1` is the
non-empty-array match; on success the posted request carries the whole
outer array (`json!(transactions)`) as params. -/
def JitoJsonRpcSDK.send_bundle (sdk : JitoJsonRpcSDK) (params : Option Json)
    (uuid : Option (List Char)) : Except (List Char) HttpRequest :=
  let endpoint :=
    match uuid with
    | some u => "/bundles?uuid=".data ++ u
    | none => "/bundles".data
  match params with
  | some (Json.arr (x0 :: tail)) =>
    match x0.asArray with
    | some serialized_txs =>
      if serialized_txs.isEmpty then
        .error "Bundle must contain at least one transaction".data
      else if serialized_txs.length > 5 then
        .error "Bundle can contain at most 5 transactions".data
      else
        .ok (sdk.send_request endpoint "sendBundle".data (some (Json.arr (x0 :: tail))))
    | none => .error "First element must be an array of transactions".data
  | _ => .error "Invalid bundle format: expected [serialized_txs, options]".data

/-- `JitoJsonRpcSDK::send_bundle_with_grpc`: the gRPC-enabled check comes
first, then the same validation as `send_bundle`; on success only
`outer_array[0]` (the transactions array) is forwarded to
`GrpcClient::send_bundle`.  The `uuid` argument is unused by the source. -/
def JitoJsonRpcSDK.send_bundle_with_grpc (sdk : JitoJsonRpcSDK) (params : Option Json)
    (_uuid : Option (List Char)) : Except (List Char) Json :=
  if sdk.grpc_enabled then
    match params with
    | some (Json.arr (x0 :: _tail)) =>
      match x0.asArray with
      | some serialized_txs =>
        if serialized_txs.isEmpty then
          .error "Bundle must contain at least one transaction".data
        else if serialized_txs.length > 5 then
          .error "Bundle can contain at most 5 transactions".data
        else .ok x0
      | none => .error "First element must be an array of transactions".data
    | _ => .error "Invalid bundle format: expected [serialized_txs, options]".data
  else .error "gRPC not enabled. Call enable_grpc() first".data

/-- `JitoJsonRpcSDK::send_request_grpc`: fails when gRPC is not enabled,
before building any payload; otherwise the JSON payload sent over the
channel. -/
def JitoJsonRpcSDK.send_request_grpc (sdk : JitoJsonRpcSDK) (endpoint : List Char)
    (method : List Char) (params : Option Json) : Except (List Char) Json :=
  if sdk.grpc_enabled then
    .ok (Json.obj
      [("endpoint".data, Json.str endpoint),
       ("method".data, Json.str method),
       ("params".data, params.getD (Json.arr []))])
  else .error "gRPC not enabled. Call enable_grpc() first".data

/-! ### GrpcClient::send_bundle retry loop -/

/-- Environment of one `GrpcClient::send_bundle` execution: for each attempt
index, whether `client.ready()` succeeds, and the unary call result
(`some payload` on success, `none` on a call error). -/
structure GrpcEnv where
  ready : Nat → Bool
  call : Nat → Option (List Char)

/-- Result classification of `GrpcClient::send_bundle`. -/
inductive GrpcOutcome where
  | ok (v : Json)
  | parseFailure (payload : List Char)
  | sendFailedAfter (retries : Nat)
  | notReadyAfter (retries : Nat)
  | unexpectedLoopEnd

/-- One execution of the wrapper: its outcome, the number of attempts made,
and the total requested sleep in milliseconds. -/
structure GrpcRun where
  outcome : GrpcOutcome
  attempts : Nat
  sleepMs : Nat

def MAX_RETRIES : Nat := 5

def INITIAL_DELAY_MS : Nat := 100

/-- The `for retry in 0..MAX_RETRIES` loop of `GrpcClient::send_bundle`:
readiness check, unary call, parse-and-return on success, terminal error on
the final attempt's failure, otherwise sleep `delay` and double it. -/
def sendBundleLoop (env : GrpcEnv) :
    Nat → Nat → Nat → Nat → GrpcRun
  | 0, retry, _, slept =>
    { outcome := .unexpectedLoopEnd, attempts := retry, sleepMs := slept }
  | remaining + 1, retry, delay, slept =>
    if env.ready retry then
      match env.call retry with
      | some payload =>
        match Json.parse payload with
        | some v => { outcome := .ok v, attempts := retry + 1, sleepMs := slept }
        | none => { outcome := .parseFailure payload, attempts := retry + 1, sleepMs := slept }
      | none =>
        if retry == MAX_RETRIES - 1 then
          { outcome := .sendFailedAfter MAX_RETRIES, attempts := retry + 1, sleepMs := slept }
        else
          sendBundleLoop env remaining (retry + 1) (delay * 2) (slept + delay)
    else
      if retry == MAX_RETRIES - 1 then
        { outcome := .notReadyAfter MAX_RETRIES, attempts := retry + 1, sleepMs := slept }
      else
        sendBundleLoop env remaining (retry + 1) (delay * 2) (slept + delay)

/-- `GrpcClient::send_bundle` as a function of its environment. -/
def GrpcClient.send_bundle (env : GrpcEnv) : GrpcRun :=
  sendBundleLoop env MAX_RETRIES 0 INITIAL_DELAY_MS 0

/-! ### Helper lemmas for the print/parse round trip -/

theorem skipWs_cons_ws {c : Char} (h : isWsChar c = true) (s : List Char) :
    skipWs (c :: s) = skipWs s := by
  simp [skipWs, h]

theorem skipWs_cons_not_ws {c : Char} (h : isWsChar c = false) (s : List Char) :
    skipWs (c :: s) = c :: s := by
  simp [skipWs, h]

theorem skipWs_replicate_space (m : Nat) (s : List Char) :
    skipWs (List.replicate m ' ' ++ s) = skipWs s := by
  induction m with
  | zero => simp
  | succ m ih =>
    rw [List.replicate_succ, List.cons_append, skipWs_cons_ws (by decide)]
    exact ih

theorem skipWs_indent (n : Nat) (s : List Char) :
    skipWs (indentChars n ++ s) = skipWs s := by
  simpa [indentChars] using skipWs_replicate_space (2 * n) s

theorem skipWs_newline (s : List Char) : skipWs ('\n' :: s) = skipWs s :=
  skipWs_cons_ws (by decide) s

theorem digitChar_toNat {d : Nat} (h : d < 10) : (Nat.digitChar d).toNat = 48 + d := by
  interval_cases d <;> decide

theorem digitChar_isDigit {d : Nat} (h : d < 10) : (Nat.digitChar d).isDigit = true := by
  interval_cases d <;> decide

theorem natChars_all_digits (m : Nat) : ∀ c ∈ natChars m, c.isDigit = true := by
  induction m using natChars.induct with
  | case1 m h =>
    rw [natChars, dif_pos h]
    intro c hc
    simp only [List.mem_singleton] at hc
    subst hc
    exact digitChar_isDigit h
  | case2 m h ih =>
    rw [natChars, dif_neg h]
    intro c hc
    rcases List.mem_append.mp hc with h1 | h2
    · exact ih c h1
    · simp only [List.mem_singleton] at h2
      subst h2
      exact digitChar_isDigit (Nat.mod_lt m (by omega))

theorem natChars_ne_nil (m : Nat) : natChars m ≠ [] := by
  rw [natChars]
  split <;> simp

theorem natChars_head_digit (m : Nat) :
    ∃ c t, natChars m = c :: t ∧ c.isDigit = true := by
  rcases hc : natChars m with _ | ⟨c, t⟩
  · exact absurd hc (natChars_ne_nil m)
  · exact ⟨c, t, rfl, natChars_all_digits m c (by rw [hc]; simp)⟩

theorem digitsVal_append_singleton (ds : List Char) (c : Char) :
    digitsVal (ds ++ [c]) = 10 * digitsVal ds + digitVal c := by
  simp [digitsVal, List.foldl_append]

theorem digitVal_digitChar {d : Nat} (h : d < 10) : digitVal (Nat.digitChar d) = d := by
  interval_cases d <;> decide

theorem digitsVal_natChars (m : Nat) : digitsVal (natChars m) = m := by
  induction m using natChars.induct with
  | case1 m h =>
    rw [natChars, dif_pos h]
    simpa [digitsVal] using digitVal_digitChar h
  | case2 m h ih =>
    rw [natChars, dif_neg h]
    rw [digitsVal_append_singleton, ih, digitVal_digitChar (Nat.mod_lt m (by omega))]
    omega

theorem takeWhile_digits (ds rest : List Char)
    (h : ∀ c ∈ ds, c.isDigit = true) (h2 : stopsNum rest = true) :
    (ds ++ rest).takeWhile Char.isDigit = ds ∧
    (ds ++ rest).dropWhile Char.isDigit = rest := by
  induction ds with
  | nil =>
    simp only [List.nil_append]
    cases rest with
    | nil => simp
    | cons c cs =>
      simp only [stopsNum, Bool.not_eq_true'] at h2
      simp [List.takeWhile_cons, List.dropWhile_cons, h2]
  | cons d ds ih =>
    have hd : d.isDigit = true := h d (by simp)
    have hrec := ih (fun c hc => h c (by simp [hc]))
    simp [List.takeWhile_cons, List.dropWhile_cons, hd, hrec.1, hrec.2]

theorem hexDigitVal_digitChar {d : Nat} (h : d < 16) :
    hexDigitVal (Nat.digitChar d) = some d := by
  interval_cases d <;> decide

theorem parseStringRest_escapeChar (c : Char) (t : List Char) :
    parseStringRest (escapeChar c ++ t) =
      (parseStringRest t).map (fun p => (c :: p.1, p.2)) := by
  by_cases h1 : c = '"'
  · subst h1; rw [show escapeChar '"' ++ t = '\\' :: '"' :: t from rfl]
    rw [parseStringRest.eq_def]; simp [escCharVal]
  by_cases h2 : c = '\\'
  · subst h2; rw [show escapeChar '\\' ++ t = '\\' :: '\\' :: t from rfl]
    rw [parseStringRest.eq_def]; simp [escCharVal]
  by_cases h3 : c = '\x08'
  · subst h3; rw [show escapeChar '\x08' ++ t = '\\' :: 'b' :: t from rfl]
    rw [parseStringRest.eq_def]; simp [escCharVal]
  by_cases h4 : c = '\t'
  · subst h4; rw [show escapeChar '\t' ++ t = '\\' :: 't' :: t from rfl]
    rw [parseStringRest.eq_def]; simp [escCharVal]
  by_cases h5 : c = '\n'
  · subst h5; rw [show escapeChar '\n' ++ t = '\\' :: 'n' :: t from rfl]
    rw [parseStringRest.eq_def]; simp [escCharVal]
  by_cases h6 : c = '\x0c'
  · subst h6; rw [show escapeChar '\x0c' ++ t = '\\' :: 'f' :: t from rfl]
    rw [parseStringRest.eq_def]; simp [escCharVal]
  by_cases h7 : c = '\r'
  · subst h7; rw [show escapeChar '\r' ++ t = '\\' :: 'r' :: t from rfl]
    rw [parseStringRest.eq_def]; simp [escCharVal]
  by_cases h8 : c.toNat < 32
  · rw [escapeChar]
    rw [if_neg h1, if_neg h2, if_neg h3, if_neg h4, if_neg h5, if_neg h6, if_neg h7, if_pos h8]
    show parseStringRest ('\\' :: 'u' :: '0' :: '0' ::
      Nat.digitChar (c.toNat / 16) :: Nat.digitChar (c.toNat % 16) :: t) = _
    have e1 : hexDigitVal (Nat.digitChar (c.toNat / 16)) = some (c.toNat / 16) :=
      hexDigitVal_digitChar (by omega)
    have e2 : hexDigitVal (Nat.digitChar (c.toNat % 16)) = some (c.toNat % 16) :=
      hexDigitVal_digitChar (by omega)
    have hv : c.toNat / 16 * 16 + c.toNat % 16 = c.toNat := by omega
    rw [parseStringRest.eq_def]
    simp only [Char.reduceEq, reduceIte, e1, e2, reduceCtorEq]
    simp only [hexDigitVal, Char.reduceLE, and_self, reduceIte, Char.reduceToNat]
    norm_num
    simp only [hv, Char.ofNat_toNat]
  · rw [escapeChar]
    rw [if_neg h1, if_neg h2, if_neg h3, if_neg h4, if_neg h5, if_neg h6, if_neg h7, if_neg h8]
    show parseStringRest (c :: t) = _
    rw [parseStringRest.eq_def]
    simp only [if_neg h1, if_neg h2]

theorem parseStringRest_escape (s rest : List Char) :
    parseStringRest (escapeStr s ++ '"' :: rest) = some (s, rest) := by
  induction s with
  | nil =>
    rw [show escapeStr [] = [] from rfl, List.nil_append, parseStringRest.eq_def]
    simp
  | cons c s ih =>
    rw [show escapeStr (c :: s) = escapeChar c ++ escapeStr s from by
      simp [escapeStr]]
    rw [List.append_assoc, parseStringRest_escapeChar, ih]
    rfl

theorem Json.size_pos (v : Json) : 1 ≤ Json.size v := by
  cases v <;> simp [Json.size]

theorem isDigit_ne {c : Char} (h : c.isDigit = true) (d : Char) (hd : d.isDigit = false) :
    c ≠ d := fun he => by subst he; rw [h] at hd; cases hd

theorem ws_not_digit {c : Char} (h : isWsChar c = true) : c.isDigit = false := by
  simp only [isWsChar, Bool.or_eq_true, beq_iff_eq] at h
  rcases h with ((h | h) | h) | h <;> subst h <;> decide

theorem isDigit_not_ws {c : Char} (h : c.isDigit = true) : isWsChar c = false := by
  cases hb : isWsChar c with
  | false => rfl
  | true => rw [ws_not_digit hb] at h; cases h

theorem prettyVal_head (n : Nat) (v : Json) :
    ∃ c t, Json.prettyVal n v = c :: t ∧ isWsChar c = false ∧ c ≠ ']' ∧ c ≠ rbraceChar := by
  cases v with
  | null =>
    exact ⟨'n', ['u', 'l', 'l'], by simp [Json.prettyVal], by decide, by decide, by decide⟩
  | bool b =>
    cases b with
    | true =>
      exact ⟨'t', ['r', 'u', 'e'], by simp [Json.prettyVal], by decide, by decide, by decide⟩
    | false =>
      exact ⟨'f', ['a', 'l', 's', 'e'], by simp [Json.prettyVal], by decide, by decide,
        by decide⟩
  | num i =>
    cases i with
    | ofNat m =>
      obtain ⟨c, t, hct, hd⟩ := natChars_head_digit m
      exact ⟨c, t, by simp [Json.prettyVal, intChars, hct], isDigit_not_ws hd,
        isDigit_ne hd ']' (by decide), isDigit_ne hd rbraceChar (by decide)⟩
    | negSucc m =>
      exact ⟨'-', natChars (m + 1), by simp [Json.prettyVal, intChars], by decide, by decide,
        by decide⟩
  | str s =>
    exact ⟨'"', escapeStr s ++ ['"'], by simp [Json.prettyVal], by decide, by decide,
      by decide⟩
  | arr xs =>
    cases xs with
    | nil => exact ⟨'[', [']'], by simp [Json.prettyVal], by decide, by decide, by decide⟩
    | cons x xs =>
      exact ⟨'[', '\n' :: (Json.prettyItems (n + 1) x xs ++ '\n' :: (indentChars n ++ [']'])),
        by simp [Json.prettyVal], by decide, by decide, by decide⟩
  | obj kvs =>
    cases kvs with
    | nil =>
      exact ⟨lbraceChar, [rbraceChar], by simp [Json.prettyVal], by decide, by decide,
        by decide⟩
    | cons kv kvs =>
      exact ⟨lbraceChar,
        '\n' :: (Json.prettyMembers (n + 1) kv kvs ++ '\n' :: (indentChars n ++ [rbraceChar])),
        by simp [Json.prettyVal], by decide, by decide, by decide⟩

theorem parseValue_congr (fuel : Nat) {s s' : List Char} (h : skipWs s = skipWs s') :
    parseValue fuel s = parseValue fuel s' := by
  cases fuel with
  | zero => simp [parseValue]
  | succ fuel => simp only [parseValue]; rw [h]

theorem parseItems_congr (fuel : Nat) {s s' : List Char} (h : skipWs s = skipWs s') :
    parseItems fuel s = parseItems fuel s' := by
  cases fuel with
  | zero => simp [parseItems]
  | succ fuel => simp only [parseItems]; rw [parseValue_congr fuel h]

theorem parseMembers_congr (fuel : Nat) {s s' : List Char} (h : skipWs s = skipWs s') :
    parseMembers fuel s = parseMembers fuel s' := by
  cases fuel with
  | zero => simp [parseMembers]
  | succ fuel => simp only [parseMembers]; rw [h]

theorem skipWs_prettyItems (m : Nat) (x : Json) (xs : List Json) (r : List Char) :
    ∃ c t, skipWs (Json.prettyItems m x xs ++ r) = c :: t ∧ isWsChar c = false ∧
      c ≠ ']' ∧ c ≠ rbraceChar := by
  obtain ⟨c, t, hct, hcw, hcb, hcr⟩ := prettyVal_head m x
  cases xs with
  | nil =>
    rw [Json.prettyItems, List.append_assoc, skipWs_indent, hct, List.cons_append,
      skipWs_cons_not_ws hcw]
    exact ⟨c, _, rfl, hcw, hcb, hcr⟩
  | cons y ys =>
    rw [Json.prettyItems, List.append_assoc, skipWs_indent, List.append_assoc, hct,
      List.cons_append, skipWs_cons_not_ws hcw]
    exact ⟨c, _, rfl, hcw, hcb, hcr⟩

theorem skipWs_prettyMembers (m : Nat) (kv : List Char × Json)
    (kvs : List (List Char × Json)) (r : List Char) :
    ∃ t, skipWs (Json.prettyMembers m kv kvs ++ r) = '"' :: t := by
  obtain ⟨k, v⟩ := kv
  cases kvs with
  | nil =>
    rw [Json.prettyMembers, List.append_assoc, skipWs_indent, List.cons_append,
      skipWs_cons_not_ws (by decide)]
    exact ⟨_, rfl⟩
  | cons kv2 kvs =>
    rw [Json.prettyMembers, List.append_assoc, List.append_assoc, skipWs_indent,
      List.cons_append, skipWs_cons_not_ws (by decide)]
    exact ⟨_, rfl⟩

set_option maxHeartbeats 1000000

theorem roundtrip_main (fuel : Nat) :
    (∀ v n rest, Json.size v < fuel → stopsNum rest = true →
      parseValue fuel (Json.prettyVal n v ++ rest) = some (v, rest)) ∧
    (∀ x xs n rest, Json.sizeItems (x :: xs) < fuel →
      parseItems fuel
        (Json.prettyItems (n + 1) x xs ++ '\n' :: (indentChars n ++ ']' :: rest)) =
        some (x :: xs, rest)) ∧
    (∀ kv kvs n rest, Json.sizeMembers (kv :: kvs) < fuel →
      parseMembers fuel
        (Json.prettyMembers (n + 1) kv kvs ++ '\n' :: (indentChars n ++ rbraceChar :: rest)) =
        some (kv :: kvs, rest)) := by
  induction fuel with
  | zero =>
    exact ⟨fun v n rest hs _ => absurd hs (Nat.not_lt_zero _),
      fun x xs n rest hs => absurd hs (Nat.not_lt_zero _),
      fun kv kvs n rest hs => absurd hs (Nat.not_lt_zero _)⟩
  | succ fuel ih =>
    obtain ⟨ihV, ihI, ihM⟩ := ih
    refine ⟨?_, ?_, ?_⟩
    · intro v n rest hs hr
      cases v with
      | null =>
        simp only [Json.prettyVal, List.cons_append, List.nil_append, parseValue]
        rw [skipWs_cons_not_ws (by decide)]
        simp
      | bool b =>
        cases b with
        | true =>
          simp only [Json.prettyVal, List.cons_append, List.nil_append, parseValue]
          rw [skipWs_cons_not_ws (by decide)]
          simp
        | false =>
          simp only [Json.prettyVal, List.cons_append, List.nil_append, parseValue]
          rw [skipWs_cons_not_ws (by decide)]
          simp
      | num i =>
        cases i with
        | ofNat m =>
          obtain ⟨c, t, hct, hd⟩ := natChars_head_digit m
          have htw := takeWhile_digits (natChars m) rest (natChars_all_digits m) hr
          have htw1 : List.takeWhile Char.isDigit (c :: (t ++ rest)) = natChars m := by
            rw [show c :: (t ++ rest) = (c :: t) ++ rest from rfl, ← hct]; exact htw.1
          have htw2 : List.dropWhile Char.isDigit (c :: (t ++ rest)) = rest := by
            rw [show c :: (t ++ rest) = (c :: t) ++ rest from rfl, ← hct]; exact htw.2
          simp only [Json.prettyVal, intChars, parseValue]
          rw [hct, List.cons_append, skipWs_cons_not_ws (isDigit_not_ws hd)]
          simp [isDigit_ne hd 'n' (by decide), isDigit_ne hd 't' (by decide),
            isDigit_ne hd 'f' (by decide), isDigit_ne hd '"' (by decide),
            isDigit_ne hd '[' (by decide), isDigit_ne hd lbraceChar (by decide),
            isDigit_ne hd '-' (by decide), hd, htw1, htw2, digitsVal_natChars]
        | negSucc m =>
          have htw := takeWhile_digits (natChars (m + 1)) rest (natChars_all_digits (m + 1)) hr
          have hne : (natChars (m + 1)).isEmpty = false := by
            cases hc : natChars (m + 1) with
            | nil => exact absurd hc (natChars_ne_nil (m + 1))
            | cons a b => rfl
          simp only [Json.prettyVal, intChars, parseValue, List.cons_append]
          rw [skipWs_cons_not_ws (by decide)]
          simp [htw.1, htw.2, hne, digitsVal_natChars, lbraceChar, Option.some.injEq,
            Prod.mk.injEq, Int.negSucc_eq]
      | str s =>
        simp only [Json.prettyVal, parseValue, List.cons_append, List.append_assoc,
          List.singleton_append]
        rw [skipWs_cons_not_ws (by decide)]
        simp [parseStringRest_escape]
      | arr xs =>
        cases xs with
        | nil =>
          simp only [Json.prettyVal, parseValue, List.cons_append, List.nil_append]
          rw [skipWs_cons_not_ws (by decide)]
          simp [skipWs, isWsChar]
        | cons x xs =>
          have hs2 : Json.sizeItems (x :: xs) < fuel := by
            simp only [Json.size] at hs; omega
          obtain ⟨c, t, hsk, hcw, hcb, hcr⟩ :=
            skipWs_prettyItems (n + 1) x xs ('\n' :: (indentChars n ++ ']' :: rest))
          have hcong : parseItems fuel
              ('\n' :: (Json.prettyItems (n + 1) x xs ++ '\n' :: (indentChars n ++ ']' :: rest))) =
              parseItems fuel
              (Json.prettyItems (n + 1) x xs ++ '\n' :: (indentChars n ++ ']' :: rest)) :=
            parseItems_congr fuel (skipWs_newline _)
          have hI := ihI x xs n rest hs2
          simp only [Json.prettyVal, parseValue, List.cons_append, List.append_assoc,
            List.singleton_append]
          rw [skipWs_cons_not_ws (by decide)]
          simp [skipWs_newline, hsk, hcb, hcong, hI]
      | obj kvs =>
        cases kvs with
        | nil =>
          simp only [Json.prettyVal, parseValue, List.cons_append, List.nil_append]
          rw [skipWs_cons_not_ws (by decide)]
          simp [skipWs, isWsChar, lbraceChar, rbraceChar]
        | cons kv kvs =>
          have hs2 : Json.sizeMembers (kv :: kvs) < fuel := by
            simp only [Json.size] at hs; omega
          obtain ⟨t, hsk⟩ :=
            skipWs_prettyMembers (n + 1) kv kvs ('\n' :: (indentChars n ++ rbraceChar :: rest))
          have hcong : parseMembers fuel
              ('\n' :: (Json.prettyMembers (n + 1) kv kvs ++
                '\n' :: (indentChars n ++ rbraceChar :: rest))) =
              parseMembers fuel
              (Json.prettyMembers (n + 1) kv kvs ++
                '\n' :: (indentChars n ++ rbraceChar :: rest)) :=
            parseMembers_congr fuel (skipWs_newline _)
          have hM := ihM kv kvs n rest hs2
          simp only [Json.prettyVal, parseValue, List.cons_append, List.append_assoc,
            List.singleton_append]
          rw [skipWs_cons_not_ws (by decide)]
          simp only [lbraceChar, rbraceChar] at hsk hcong hM ⊢
          simp [skipWs_newline, hsk, hcong, hM]
    · intro x xs n rest h
      have hsx : Json.size x < fuel := by simp only [Json.sizeItems] at h; omega
      cases xs with
      | nil =>
        have hV := ihV x (n + 1) ('\n' :: (indentChars n ++ ']' :: rest)) hsx (by rfl)
        have hcong : parseValue fuel
            (indentChars (n + 1) ++
              (Json.prettyVal (n + 1) x ++ '\n' :: (indentChars n ++ ']' :: rest))) =
            parseValue fuel
            (Json.prettyVal (n + 1) x ++ '\n' :: (indentChars n ++ ']' :: rest)) :=
          parseValue_congr fuel (skipWs_indent _ _)
        have hskA : skipWs ('\n' :: (indentChars n ++ ']' :: rest)) = ']' :: rest := by
          rw [skipWs_newline, skipWs_indent, skipWs_cons_not_ws (by decide)]
        simp only [parseItems, Json.prettyItems, List.append_assoc]
        rw [hcong, hV]
        simp [hskA]
      | cons y ys =>
        have hV := ihV x (n + 1)
          (',' :: '\n' ::
            (Json.prettyItems (n + 1) y ys ++ '\n' :: (indentChars n ++ ']' :: rest)))
          hsx (by rfl)
        have hcong : parseValue fuel
            (indentChars (n + 1) ++
              (Json.prettyVal (n + 1) x ++ ',' :: '\n' ::
                (Json.prettyItems (n + 1) y ys ++ '\n' :: (indentChars n ++ ']' :: rest)))) =
            parseValue fuel
            (Json.prettyVal (n + 1) x ++ ',' :: '\n' ::
              (Json.prettyItems (n + 1) y ys ++ '\n' :: (indentChars n ++ ']' :: rest))) :=
          parseValue_congr fuel (skipWs_indent _ _)
        have hI2 := ihI y ys n rest (by simp only [Json.sizeItems] at h ⊢; omega)
        have hcong2 : parseItems fuel
            ('\n' :: (Json.prettyItems (n + 1) y ys ++ '\n' :: (indentChars n ++ ']' :: rest))) =
            parseItems fuel
            (Json.prettyItems (n + 1) y ys ++ '\n' :: (indentChars n ++ ']' :: rest)) :=
          parseItems_congr fuel (skipWs_newline _)
        simp only [parseItems, Json.prettyItems, List.append_assoc, List.cons_append]
        rw [hcong, hV]
        simp [skipWs_cons_not_ws (by decide : isWsChar ',' = false), hcong2, hI2]
    · intro kv kvs n rest h
      obtain ⟨k, v⟩ := kv
      have hsv : Json.size v < fuel := by simp only [Json.sizeMembers] at h; omega
      cases kvs with
      | nil =>
        have hV := ihV v (n + 1) ('\n' :: (indentChars n ++ rbraceChar :: rest)) hsv (by rfl)
        have hced : parseValue fuel
            (' ' :: (Json.prettyVal (n + 1) v ++ '\n' :: (indentChars n ++ rbraceChar :: rest))) =
            parseValue fuel
            (Json.prettyVal (n + 1) v ++ '\n' :: (indentChars n ++ rbraceChar :: rest)) :=
          parseValue_congr fuel (skipWs_cons_ws (by decide) _)
        have hskA : skipWs ('\n' :: (indentChars n ++ rbraceChar :: rest)) =
            rbraceChar :: rest := by
          rw [skipWs_newline, skipWs_indent,
            skipWs_cons_not_ws (by decide : isWsChar rbraceChar = false)]
        simp only [parseMembers, Json.prettyMembers, List.append_assoc, List.cons_append]
        rw [skipWs_indent, skipWs_cons_not_ws (by decide)]
        simp [parseStringRest_escape, skipWs_cons_not_ws (by decide : isWsChar ':' = false),
          hced, hV, hskA, (by decide : ¬rbraceChar = ',')]
      | cons kv2 kvs =>
        have hV := ihV v (n + 1)
          (',' :: '\n' ::
            (Json.prettyMembers (n + 1) kv2 kvs ++ '\n' :: (indentChars n ++ rbraceChar :: rest)))
          hsv (by rfl)
        have hced : parseValue fuel
            (' ' :: (Json.prettyVal (n + 1) v ++ ',' :: '\n' ::
              (Json.prettyMembers (n + 1) kv2 kvs ++
                '\n' :: (indentChars n ++ rbraceChar :: rest)))) =
            parseValue fuel
            (Json.prettyVal (n + 1) v ++ ',' :: '\n' ::
              (Json.prettyMembers (n + 1) kv2 kvs ++
                '\n' :: (indentChars n ++ rbraceChar :: rest))) :=
          parseValue_congr fuel (skipWs_cons_ws (by decide) _)
        have hM2 := ihM kv2 kvs n rest (by simp only [Json.sizeMembers] at h ⊢; omega)
        have hcong2 : parseMembers fuel
            ('\n' :: (Json.prettyMembers (n + 1) kv2 kvs ++
              '\n' :: (indentChars n ++ rbraceChar :: rest))) =
            parseMembers fuel
            (Json.prettyMembers (n + 1) kv2 kvs ++
              '\n' :: (indentChars n ++ rbraceChar :: rest)) :=
          parseMembers_congr fuel (skipWs_newline _)
        simp only [parseMembers, Json.prettyMembers, List.append_assoc, List.cons_append]
        rw [skipWs_indent, skipWs_cons_not_ws (by decide)]
        simp [parseStringRest_escape, skipWs_cons_not_ws (by decide : isWsChar ':' = false),
          skipWs_cons_not_ws (by decide : isWsChar ',' = false), hced, hV, hM2, hcong2]

theorem Json.inductionOn (P : Json → Prop)
    (hnull : P .null) (hbool : ∀ b, P (.bool b)) (hnum : ∀ i, P (.num i))
    (hstr : ∀ s, P (.str s))
    (harr : ∀ xs, (∀ x ∈ xs, P x) → P (.arr xs))
    (hobj : ∀ kvs, (∀ kv ∈ kvs, P kv.2) → P (.obj kvs)) (v : Json) : P v := by
  have H : ∀ m (v : Json), sizeOf v ≤ m → P v := by
    intro m
    induction m with
    | zero => intro v hv; cases v <;> simp at hv
    | succ m ih =>
      intro v hv
      cases v with
      | null => exact hnull
      | bool b => exact hbool b
      | num i => exact hnum i
      | str s => exact hstr s
      | arr xs =>
        refine harr xs (fun x hx => ih x ?_)
        have h1 := List.sizeOf_lt_of_mem hx
        simp only [Json.arr.sizeOf_spec] at hv
        omega
      | obj kvs =>
        refine hobj kvs (fun kv hkv => ih kv.2 ?_)
        have h1 := List.sizeOf_lt_of_mem hkv
        obtain ⟨a, b⟩ := kv
        simp only [Json.obj.sizeOf_spec, Prod.mk.sizeOf_spec] at hv h1 ⊢
        omega
  exact H (sizeOf v) v le_rfl

theorem items_length_bound (xs : List Json) (x : Json) (m : Nat) (hm : 1 ≤ m)
    (hy : ∀ y ∈ x :: xs, ∀ n, Json.size y ≤ (Json.prettyVal n y).length) :
    Json.sizeItems (x :: xs) ≤ (Json.prettyItems m x xs).length := by
  induction xs generalizing x with
  | nil =>
    have hx := hy x (by simp) m
    simp only [Json.sizeItems, Json.prettyItems, List.length_append, indentChars,
      List.length_replicate]
    omega
  | cons y ys ih =>
    have hx := hy x (by simp) m
    have hrec := ih y (fun z hz n => hy z (by simp at hz ⊢; tauto) n)
    simp only [Json.sizeItems, Json.prettyItems, List.length_append, List.length_cons,
      indentChars, List.length_replicate] at hrec ⊢
    omega

theorem members_length_bound (kvs : List (List Char × Json)) (kv : List Char × Json)
    (m : Nat) (hm : 1 ≤ m)
    (hy : ∀ p ∈ kv :: kvs, ∀ n, Json.size p.2 ≤ (Json.prettyVal n p.2).length) :
    Json.sizeMembers (kv :: kvs) ≤ (Json.prettyMembers m kv kvs).length := by
  induction kvs generalizing kv with
  | nil =>
    obtain ⟨k, v⟩ := kv
    have hx := hy (k, v) (by simp) m
    simp only [Json.sizeMembers, Json.prettyMembers, List.length_append, List.length_cons,
      indentChars, List.length_replicate] at hx ⊢
    omega
  | cons kv2 kvs ih =>
    obtain ⟨k, v⟩ := kv
    have hx := hy (k, v) (by simp) m
    have hrec := ih kv2 (fun z hz n => hy z (by simp at hz ⊢; tauto) n)
    simp only [Json.sizeMembers, Json.prettyMembers, List.length_append, List.length_cons,
      indentChars, List.length_replicate] at hx hrec ⊢
    omega

theorem size_le_prettyVal_length (v : Json) : ∀ n, Json.size v ≤ (Json.prettyVal n v).length := by
  induction v using Json.inductionOn with
  | hnull => intro n; simp [Json.size, Json.prettyVal]
  | hbool b => intro n; cases b <;> simp [Json.size, Json.prettyVal]
  | hnum i =>
    intro n
    cases i with
    | ofNat m =>
      have h1 : 0 < (natChars m).length := List.length_pos.mpr (natChars_ne_nil m)
      simp only [Json.size, Json.prettyVal, intChars]
      omega
    | negSucc m =>
      have h1 : 0 < (natChars (m + 1)).length := List.length_pos.mpr (natChars_ne_nil (m + 1))
      simp only [Json.size, Json.prettyVal, intChars, List.length_cons]
      omega
  | hstr s => intro n; simp [Json.size, Json.prettyVal]
  | harr xs ih =>
    intro n
    cases xs with
    | nil => simp [Json.size, Json.sizeItems, Json.prettyVal]
    | cons x xs =>
      have hb := items_length_bound xs x (n + 1) (by omega) (fun y hy n' => ih y hy n')
      simp only [Json.size, Json.prettyVal, List.length_cons, List.length_append,
        indentChars, List.length_replicate]
      omega
  | hobj kvs ih =>
    intro n
    cases kvs with
    | nil => simp [Json.size, Json.sizeMembers, Json.prettyVal]
    | cons kv kvs =>
      have hb := members_length_bound kvs kv (n + 1) (by omega) (fun p hp n' => ih p hp n')
      simp only [Json.size, Json.prettyVal, List.length_cons, List.length_append,
        indentChars, List.length_replicate]
      omega

/-- C9: pretty-printing a structured JSON value through `PrettyJsonValue`'s
`Display` path and parsing the text back yields the same logical value. -/
theorem C9_prettyprint_parse_roundtrip (v : Json) :
    Json.parse (prettyDisplay v) = some v := by
  have h := (roundtrip_main (2 * (Json.prettyVal 0 v).length + 2)).1 v 0 []
    (by have := size_le_prettyVal_length v 0; omega) rfl
  rw [List.append_nil] at h
  rw [prettyDisplay, Json.parse, h]
  simp [skipWs]

theorem sendBundleLoop_fail_step (env : GrpcEnv) (remaining retry delay slept : Nat)
    (hf : env.ready retry = false ∨ env.call retry = none) (hlt : retry < 4) :
    sendBundleLoop env (remaining + 1) retry delay slept =
      sendBundleLoop env remaining (retry + 1) (delay * 2) (slept + delay) := by
  have h4 : (retry == MAX_RETRIES - 1) = false := by
    simp [MAX_RETRIES]; omega
  rcases hf with hf | hf
  · simp [sendBundleLoop, hf, h4]
  · cases hr : env.ready retry with
    | false => simp [sendBundleLoop, hr, h4]
    | true => simp [sendBundleLoop, hr, hf, h4]

theorem sendBundleLoop_fail_last (env : GrpcEnv) (remaining delay slept : Nat)
    (hf : env.ready 4 = false ∨ env.call 4 = none) :
    (sendBundleLoop env (remaining + 1) 4 delay slept).attempts = 5 ∧
    ((sendBundleLoop env (remaining + 1) 4 delay slept).outcome = .sendFailedAfter 5 ∨
     (sendBundleLoop env (remaining + 1) 4 delay slept).outcome = .notReadyAfter 5) := by
  cases hr : env.ready 4 with
  | false => simp [sendBundleLoop, hr, MAX_RETRIES]
  | true =>
    rcases hf with hf | hf
    · rw [hr] at hf; cases hf
    · simp [sendBundleLoop, hr, hf, MAX_RETRIES]

theorem sendBundleLoop_success_step (env : GrpcEnv) (remaining retry delay slept : Nat)
    (payload : List Char) (v : Json) (hr : env.ready retry = true)
    (hc : env.call retry = some payload) (hp : Json.parse payload = some v) :
    sendBundleLoop env (remaining + 1) retry delay slept =
      { outcome := .ok v, attempts := retry + 1, sleepMs := slept } := by
  simp [sendBundleLoop, hr, hc, hp]

theorem sendBundleLoop_parsefail_step (env : GrpcEnv) (remaining retry delay slept : Nat)
    (payload : List Char) (hr : env.ready retry = true)
    (hc : env.call retry = some payload) (hp : Json.parse payload = none) :
    sendBundleLoop env (remaining + 1) retry delay slept =
      { outcome := .parseFailure payload, attempts := retry + 1, sleepMs := slept } := by
  simp [sendBundleLoop, hr, hc, hp]

/-- C1: if every one of the five attempts fails (channel not ready or unary
call error), the wrapper makes exactly 5 attempts and ends with a terminal
error carrying the attempt count 5; if the first `k` attempts (`k < 4`)
fail and attempt `k+1` succeeds with a parseable payload, the wrapper
returns that success with `k+1` attempts and total requested sleep
`100 * (2^k - 1)` milliseconds.  A readiness check precedes every unary
call by construction of `sendBundleLoop`. -/
theorem C1_retry_wrapper :
    (∀ env : GrpcEnv, (∀ i, i < 5 → env.ready i = false ∨ env.call i = none) →
      (GrpcClient.send_bundle env).attempts = 5 ∧
      ((GrpcClient.send_bundle env).outcome = .sendFailedAfter 5 ∨
       (GrpcClient.send_bundle env).outcome = .notReadyAfter 5)) ∧
    (∀ (env : GrpcEnv) (k : Nat) (payload : List Char) (v : Json), k < 4 →
      (∀ i, i < k → env.ready i = false ∨ env.call i = none) →
      env.ready k = true → env.call k = some payload → Json.parse payload = some v →
      GrpcClient.send_bundle env =
        { outcome := .ok v, attempts := k + 1, sleepMs := 100 * (2 ^ k - 1) }) := by
  constructor
  · intro env hall
    rw [GrpcClient.send_bundle, MAX_RETRIES, INITIAL_DELAY_MS]
    rw [sendBundleLoop_fail_step env _ _ _ _ (hall 0 (by omega)) (by omega)]
    rw [sendBundleLoop_fail_step env _ _ _ _ (hall 1 (by omega)) (by omega)]
    rw [sendBundleLoop_fail_step env _ _ _ _ (hall 2 (by omega)) (by omega)]
    rw [sendBundleLoop_fail_step env _ _ _ _ (hall 3 (by omega)) (by omega)]
    exact sendBundleLoop_fail_last env _ _ _ (hall 4 (by omega))
  · intro env k payload v hk hfail hr hc hp
    rw [GrpcClient.send_bundle, MAX_RETRIES, INITIAL_DELAY_MS]
    interval_cases k
    · rw [sendBundleLoop_success_step env _ _ _ _ payload v hr hc hp]
      norm_num
    · rw [sendBundleLoop_fail_step env _ _ _ _ (hfail 0 (by omega)) (by omega)]
      rw [sendBundleLoop_success_step env _ _ _ _ payload v hr hc hp]
      norm_num
    · rw [sendBundleLoop_fail_step env _ _ _ _ (hfail 0 (by omega)) (by omega)]
      rw [sendBundleLoop_fail_step env _ _ _ _ (hfail 1 (by omega)) (by omega)]
      rw [sendBundleLoop_success_step env _ _ _ _ payload v hr hc hp]
      norm_num
    · rw [sendBundleLoop_fail_step env _ _ _ _ (hfail 0 (by omega)) (by omega)]
      rw [sendBundleLoop_fail_step env _ _ _ _ (hfail 1 (by omega)) (by omega)]
      rw [sendBundleLoop_fail_step env _ _ _ _ (hfail 2 (by omega)) (by omega)]
      rw [sendBundleLoop_success_step env _ _ _ _ payload v hr hc hp]
      norm_num

/-- C6: once a unary call succeeds, the payload is parsed and the result is
returned immediately — a parse failure after a successful call on attempt
`k+1` ends the wrapper after exactly `k+1` attempts with a parse-failure
error distinct from the retry-exhaustion errors. -/
theorem C6_parse_failure_terminal (env : GrpcEnv) (k : Nat) (payload : List Char)
    (hk : k < 5) (hfail : ∀ i, i < k → env.ready i = false ∨ env.call i = none)
    (hr : env.ready k = true) (hc : env.call k = some payload)
    (hp : Json.parse payload = none) :
    (GrpcClient.send_bundle env).outcome = .parseFailure payload ∧
    (GrpcClient.send_bundle env).attempts = k + 1 ∧
    (∀ n, (GrpcOutcome.parseFailure payload ≠ .sendFailedAfter n) ∧
      (GrpcOutcome.parseFailure payload ≠ .notReadyAfter n)) := by
  have heq : GrpcClient.send_bundle env =
      { outcome := .parseFailure payload, attempts := k + 1, sleepMs := 100 * (2 ^ k - 1) } := by
    rw [GrpcClient.send_bundle, MAX_RETRIES, INITIAL_DELAY_MS]
    interval_cases k
    · rw [sendBundleLoop_parsefail_step env _ _ _ _ payload hr hc hp]; norm_num
    · rw [sendBundleLoop_fail_step env _ _ _ _ (hfail 0 (by omega)) (by omega),
        sendBundleLoop_parsefail_step env _ _ _ _ payload hr hc hp]; norm_num
    · rw [sendBundleLoop_fail_step env _ _ _ _ (hfail 0 (by omega)) (by omega),
        sendBundleLoop_fail_step env _ _ _ _ (hfail 1 (by omega)) (by omega),
        sendBundleLoop_parsefail_step env _ _ _ _ payload hr hc hp]; norm_num
    · rw [sendBundleLoop_fail_step env _ _ _ _ (hfail 0 (by omega)) (by omega),
        sendBundleLoop_fail_step env _ _ _ _ (hfail 1 (by omega)) (by omega),
        sendBundleLoop_fail_step env _ _ _ _ (hfail 2 (by omega)) (by omega),
        sendBundleLoop_parsefail_step env _ _ _ _ payload hr hc hp]; norm_num
    · rw [sendBundleLoop_fail_step env _ _ _ _ (hfail 0 (by omega)) (by omega),
        sendBundleLoop_fail_step env _ _ _ _ (hfail 1 (by omega)) (by omega),
        sendBundleLoop_fail_step env _ _ _ _ (hfail 2 (by omega)) (by omega),
        sendBundleLoop_fail_step env _ _ _ _ (hfail 3 (by omega)) (by omega),
        sendBundleLoop_parsefail_step env _ _ _ _ payload hr hc hp]; norm_num
  refine ⟨?_, ?_, ?_⟩
  · rw [heq]
  · rw [heq]
  · intro n
    constructor
    · intro h
      cases h
    · intro h
      cases h

/-- C10: the error arm after the retry loop is unreachable. -/
theorem C10_loop_end_unreachable (env : GrpcEnv) :
    (GrpcClient.send_bundle env).outcome ≠ .unexpectedLoopEnd := by
  have H : ∀ remaining retry delay slept, retry + remaining = 5 → 0 < remaining →
      (sendBundleLoop env remaining retry delay slept).outcome ≠ .unexpectedLoopEnd := by
    intro remaining
    induction remaining with
    | zero => intro retry delay slept _ h0; omega
    | succ remaining ih =>
      intro retry delay slept hsum _
      cases hr : env.ready retry with
      | true =>
        cases hc : env.call retry with
        | some payload =>
          cases hp : Json.parse payload with
          | some v => simp [sendBundleLoop, hr, hc, hp]
          | none => simp [sendBundleLoop, hr, hc, hp]
        | none =>
          cases h4 : retry == MAX_RETRIES - 1 with
          | true => simp [sendBundleLoop, hr, hc, h4]
          | false =>
            have : retry ≠ 4 := by simpa [MAX_RETRIES] using h4
            rw [show sendBundleLoop env (remaining + 1) retry delay slept =
              sendBundleLoop env remaining (retry + 1) (delay * 2) (slept + delay) from by
                simp [sendBundleLoop, hr, hc, h4]]
            exact ih (retry + 1) (delay * 2) (slept + delay) (by omega) (by omega)
      | false =>
        cases h4 : retry == MAX_RETRIES - 1 with
        | true => simp [sendBundleLoop, hr, h4]
        | false =>
          have : retry ≠ 4 := by simpa [MAX_RETRIES] using h4
          rw [show sendBundleLoop env (remaining + 1) retry delay slept =
            sendBundleLoop env remaining (retry + 1) (delay * 2) (slept + delay) from by
              simp [sendBundleLoop, hr, h4]]
          exact ih (retry + 1) (delay * 2) (slept + delay) (by omega) (by omega)
  exact H MAX_RETRIES 0 INITIAL_DELAY_MS 0 (by simp [MAX_RETRIES]) (by simp [MAX_RETRIES])

/-- C4: for every method and optional params, `send_request` posts exactly
the JSON-RPC 2.0 envelope with id 1 and the given method, `params`
defaulting to the empty array when absent, with a JSON content type, to
`base_url ++ endpoint`. -/
theorem C4_send_request_envelope (sdk : JitoJsonRpcSDK) (endpoint method : List Char)
    (params : Option Json) :
    (sdk.send_request endpoint method params).url = sdk.base_url ++ endpoint ∧
    (sdk.send_request endpoint method params).contentType = "application/json".data ∧
    (sdk.send_request endpoint method params).body =
      Json.obj
        [("jsonrpc".data, Json.str "2.0".data),
         ("id".data, Json.num 1),
         ("method".data, Json.str method),
         ("params".data, params.getD (Json.arr []))] ∧
    (sdk.send_request endpoint method none).body =
      Json.obj
        [("jsonrpc".data, Json.str "2.0".data),
         ("id".data, Json.num 1),
         ("method".data, Json.str method),
         ("params".data, Json.arr [])] :=
  ⟨rfl, rfl, rfl, rfl⟩

/-- C7: `get_bundle_statuses(["id1","id2"])` posts method
`getBundleStatuses` with the doubly nested params `[["id1","id2"]]` to
`/bundles?uuid=<id>` when the attribution id is set and to `/bundles`
otherwise. -/
theorem C7_get_bundle_statuses (sdk : JitoJsonRpcSDK) (u : List Char) :
    (sdk.uuid = some u →
      sdk.get_bundle_statuses ["id1".data, "id2".data] =
        sdk.send_request ("/bundles?uuid=".data ++ u) "getBundleStatuses".data
          (some (Json.arr [Json.arr [Json.str "id1".data, Json.str "id2".data]]))) ∧
    (sdk.uuid = none →
      sdk.get_bundle_statuses ["id1".data, "id2".data] =
        sdk.send_request "/bundles".data "getBundleStatuses".data
          (some (Json.arr [Json.arr [Json.str "id1".data, Json.str "id2".data]]))) := by
  constructor
  · intro hu
    rw [JitoJsonRpcSDK.get_bundle_statuses, JitoJsonRpcSDK.bundlesEndpoint, hu]
    rfl
  · intro hu
    rw [JitoJsonRpcSDK.get_bundle_statuses, JitoJsonRpcSDK.bundlesEndpoint, hu]
    rfl

/-- C7 witness: both branches at concrete clients. -/
theorem C7_get_bundle_statuses_witness :
    ((JitoJsonRpcSDK.mk "http://e".data (some "u1".data) false).get_bundle_statuses
        ["id1".data, "id2".data] =
      (JitoJsonRpcSDK.mk "http://e".data (some "u1".data) false).send_request
        ("/bundles?uuid=".data ++ "u1".data) "getBundleStatuses".data
        (some (Json.arr [Json.arr [Json.str "id1".data, Json.str "id2".data]]))) ∧
    ((JitoJsonRpcSDK.mk "http://e".data none false).get_bundle_statuses
        ["id1".data, "id2".data] =
      (JitoJsonRpcSDK.mk "http://e".data none false).send_request
        "/bundles".data "getBundleStatuses".data
        (some (Json.arr [Json.arr [Json.str "id1".data, Json.str "id2".data]]))) :=
  ⟨(C7_get_bundle_statuses (JitoJsonRpcSDK.mk "http://e".data (some "u1".data) false)
      "u1".data).1 rfl,
   (C7_get_bundle_statuses (JitoJsonRpcSDK.mk "http://e".data none false) "u1".data).2 rfl⟩

/-- C8: with the gRPC transport not enabled, both gRPC-path methods fail up
front with the descriptive error, before any payload is built or sent (an
`error` result of the model carries no request), and the embedded client
state is read-only in both functions. -/
theorem C8_grpc_not_enabled (sdk : JitoJsonRpcSDK) (endpoint method : List Char)
    (params : Option Json) (uuid : Option (List Char))
    (h : sdk.grpc_enabled = false) :
    sdk.send_request_grpc endpoint method params =
      .error "gRPC not enabled. Call enable_grpc() first".data ∧
    sdk.send_bundle_with_grpc params uuid =
      .error "gRPC not enabled. Call enable_grpc() first".data := by
  constructor
  · rw [JitoJsonRpcSDK.send_request_grpc, h]
    exact if_neg (by decide)
  · rw [JitoJsonRpcSDK.send_bundle_with_grpc.eq_def, h]
    exact if_neg (by decide)

/-- C8 witness: a concrete client without gRPC enabled. -/
theorem C8_grpc_not_enabled_witness :
    (JitoJsonRpcSDK.mk "http://e".data none false).send_request_grpc
        "/bundles".data "getTipAccounts".data none =
      .error "gRPC not enabled. Call enable_grpc() first".data ∧
    (JitoJsonRpcSDK.mk "http://e".data none false).send_bundle_with_grpc
        (some (Json.arr [Json.arr [Json.str "tx".data]])) none =
      .error "gRPC not enabled. Call enable_grpc() first".data :=
  C8_grpc_not_enabled (JitoJsonRpcSDK.mk "http://e".data none false)
    "/bundles".data "getTipAccounts".data
    (some (Json.arr [Json.arr [Json.str "tx".data]])) none rfl

/-- C3: `get_random_tip_account` fails when the `result` field is missing,
not an array, or an empty array; on a non-empty array the (randomly chosen)
element is returned as a string when it is one, and a string-parse error is
raised when it is not. -/
theorem C3_get_random_tip_account (resp : Json) (pick : Nat) :
    ((resp.index "result".data).asArray = none →
      JitoJsonRpcSDK.get_random_tip_account resp pick =
        .error "Failed to parse tip accounts as array".data) ∧
    ((resp.index "result".data).asArray = some [] →
      JitoJsonRpcSDK.get_random_tip_account resp pick =
        .error "No tip accounts available".data) ∧
    (∀ l, (resp.index "result".data).asArray = some l → l ≠ [] →
      ∃ a ∈ l,
        (∃ s, a = Json.str s ∧
          JitoJsonRpcSDK.get_random_tip_account resp pick = .ok s) ∨
        (a.asStr = none ∧
          JitoJsonRpcSDK.get_random_tip_account resp pick =
            .error "Failed to parse tip account as string".data)) := by
  refine ⟨?_, ?_, ?_⟩
  · intro h
    rw [JitoJsonRpcSDK.get_random_tip_account.eq_def, h]
  · intro h
    rw [JitoJsonRpcSDK.get_random_tip_account.eq_def, h]
    rfl
  · intro l hl hne
    have hlen : 0 < l.length := List.length_pos.mpr hne
    have hidx : pick % l.length < l.length := Nat.mod_lt _ hlen
    have hget : l[pick % l.length]? = some l[pick % l.length] := List.getElem?_eq_getElem hidx
    have hemp : l.isEmpty = false := by
      cases l with
      | nil => exact absurd rfl hne
      | cons a b => rfl
    have hres : JitoJsonRpcSDK.get_random_tip_account resp pick =
        (match l[pick % l.length].asStr with
         | none => .error "Failed to parse tip account as string".data
         | some s => .ok s) := by
      rw [JitoJsonRpcSDK.get_random_tip_account.eq_def, hl]
      simp only [hemp, Bool.false_eq_true, if_false, hget]
    refine ⟨l[pick % l.length], List.getElem_mem hidx, ?_⟩
    cases ha : l[pick % l.length] with
    | str s =>
      rw [ha] at hres
      exact Or.inl ⟨s, rfl, by simpa [Json.asStr] using hres⟩
    | null =>
      rw [ha] at hres
      exact Or.inr ⟨by simp [Json.asStr], by simpa [Json.asStr] using hres⟩
    | bool b =>
      rw [ha] at hres
      exact Or.inr ⟨by simp [Json.asStr], by simpa [Json.asStr] using hres⟩
    | num i =>
      rw [ha] at hres
      exact Or.inr ⟨by simp [Json.asStr], by simpa [Json.asStr] using hres⟩
    | arr xs =>
      rw [ha] at hres
      exact Or.inr ⟨by simp [Json.asStr], by simpa [Json.asStr] using hres⟩
    | obj kvs =>
      rw [ha] at hres
      exact Or.inr ⟨by simp [Json.asStr], by simpa [Json.asStr] using hres⟩

/-- C3 witness: the three branches at concrete responses. -/
theorem C3_get_random_tip_account_witness :
    (JitoJsonRpcSDK.get_random_tip_account (Json.obj []) 0 =
      .error "Failed to parse tip accounts as array".data) ∧
    (JitoJsonRpcSDK.get_random_tip_account (Json.obj [("result".data, Json.arr [])]) 0 =
      .error "No tip accounts available".data) ∧
    (∃ a ∈ [Json.str "acc".data],
      (∃ s, a = Json.str s ∧
        JitoJsonRpcSDK.get_random_tip_account
          (Json.obj [("result".data, Json.arr [Json.str "acc".data])]) 0 = .ok s) ∨
      (a.asStr = none ∧
        JitoJsonRpcSDK.get_random_tip_account
          (Json.obj [("result".data, Json.arr [Json.str "acc".data])]) 0 =
          .error "Failed to parse tip account as string".data)) :=
  ⟨(C3_get_random_tip_account (Json.obj []) 0).1 rfl,
   (C3_get_random_tip_account (Json.obj [("result".data, Json.arr [])]) 0).2.1 rfl,
   (C3_get_random_tip_account
      (Json.obj [("result".data, Json.arr [Json.str "acc".data])]) 0).2.2
     [Json.str "acc".data] rfl (List.cons_ne_nil _ _)⟩

/-- C2 counterexample: `send_bundle` accepts a one-element parameter
`[["tx"]]` (no options element), although the claim says only two-element
structures are accepted. -/
theorem C2_counterexample_one_element_accepted :
    (JitoJsonRpcSDK.mk "http://e".data none false).send_bundle
        (some (Json.arr [Json.arr [Json.str "tx".data]])) none =
      .ok ((JitoJsonRpcSDK.mk "http://e".data none false).send_request
        "/bundles".data "sendBundle".data
        (some (Json.arr [Json.arr [Json.str "tx".data]]))) := rfl

/-- C2 (amended): the shared validator of `send_bundle` and
`send_bundle_with_grpc` accepts exactly the parameters of the form
`Some(Array(outer))` with `outer.len() >= 1` whose first element is an
array of 1 to 5 transactions (two elements are not required and extra
elements are allowed); every other input is rejected — before any request
is produced — with a distinct error naming the violated invariant. -/
theorem C2_amended_validator (sdk : JitoJsonRpcSDK) (params : Option Json)
    (uuid : Option (List Char)) :
    ((∃ r, sdk.send_bundle params uuid = .ok r) ↔
      (∃ x0 tail txs, params = some (Json.arr (x0 :: tail)) ∧ x0.asArray = some txs ∧
        1 ≤ txs.length ∧ txs.length ≤ 5)) ∧
    (sdk.grpc_enabled = true →
      ((∃ r, sdk.send_bundle_with_grpc params uuid = .ok r) ↔
        (∃ x0 tail txs, params = some (Json.arr (x0 :: tail)) ∧ x0.asArray = some txs ∧
          1 ≤ txs.length ∧ txs.length ≤ 5))) ∧
    (∀ x0 tail txs, params = some (Json.arr (x0 :: tail)) → x0.asArray = some txs →
      txs = [] →
      sdk.send_bundle params uuid =
        .error "Bundle must contain at least one transaction".data) ∧
    (∀ x0 tail txs, params = some (Json.arr (x0 :: tail)) → x0.asArray = some txs →
      5 < txs.length →
      sdk.send_bundle params uuid =
        .error "Bundle can contain at most 5 transactions".data) ∧
    (∀ x0 tail, params = some (Json.arr (x0 :: tail)) → x0.asArray = none →
      sdk.send_bundle params uuid =
        .error "First element must be an array of transactions".data) ∧
    ((∀ x0 tail, params ≠ some (Json.arr (x0 :: tail))) →
      sdk.send_bundle params uuid =
        .error "Invalid bundle format: expected [serialized_txs, options]".data) := by
  have hmain : ∀ x0 tail txs, x0.asArray = some txs → 1 ≤ txs.length → txs.length ≤ 5 →
      sdk.send_bundle (some (Json.arr (x0 :: tail))) uuid =
        .ok (sdk.send_request
          (match uuid with
           | some u => "/bundles?uuid=".data ++ u
           | none => "/bundles".data) "sendBundle".data
          (some (Json.arr (x0 :: tail)))) := by
    intro x0 tail txs hx h1 h5
    have hemp : txs.isEmpty = false := by
      cases txs with
      | nil => simp at h1
      | cons a b => rfl
    simp [JitoJsonRpcSDK.send_bundle, hx, hemp, show ¬txs.length > 5 by omega]
  refine ⟨?_, ?_, ?_, ?_, ?_, ?_⟩
  · constructor
    · rintro ⟨r, hr⟩
      match params with
      | none => exact absurd hr (by simp [JitoJsonRpcSDK.send_bundle])
      | some Json.null => exact absurd hr (by simp [JitoJsonRpcSDK.send_bundle])
      | some (Json.bool b) => exact absurd hr (by simp [JitoJsonRpcSDK.send_bundle])
      | some (Json.num i) => exact absurd hr (by simp [JitoJsonRpcSDK.send_bundle])
      | some (Json.str s) => exact absurd hr (by simp [JitoJsonRpcSDK.send_bundle])
      | some (Json.obj kvs) => exact absurd hr (by simp [JitoJsonRpcSDK.send_bundle])
      | some (Json.arr []) => exact absurd hr (by simp [JitoJsonRpcSDK.send_bundle])
      | some (Json.arr (x0 :: tail)) =>
        cases hx : x0.asArray with
        | none => exact absurd hr (by simp [JitoJsonRpcSDK.send_bundle, hx])
        | some txs =>
          by_cases h1 : txs.isEmpty
          · exact absurd hr (by simp [JitoJsonRpcSDK.send_bundle, hx, h1])
          by_cases h5 : txs.length > 5
          · exact absurd hr (by simp [JitoJsonRpcSDK.send_bundle, hx, h1, h5])
          refine ⟨x0, tail, txs, rfl, hx, ?_, by omega⟩
          cases txs with
          | nil => simp at h1
          | cons a b => simp
    · rintro ⟨x0, tail, txs, hp, hx, h1, h5⟩
      subst hp
      exact ⟨_, hmain x0 tail txs hx h1 h5⟩
  · intro hg
    constructor
    · rintro ⟨r, hr⟩
      rw [JitoJsonRpcSDK.send_bundle_with_grpc.eq_def, hg, if_pos rfl] at hr
      match params with
      | none => exact absurd hr (by simp)
      | some Json.null => exact absurd hr (by simp)
      | some (Json.bool b) => exact absurd hr (by simp)
      | some (Json.num i) => exact absurd hr (by simp)
      | some (Json.str s) => exact absurd hr (by simp)
      | some (Json.obj kvs) => exact absurd hr (by simp)
      | some (Json.arr []) => exact absurd hr (by simp)
      | some (Json.arr (x0 :: tail)) =>
        cases hx : x0.asArray with
        | none => exact absurd hr (by simp [hx])
        | some txs =>
          by_cases h1 : txs.isEmpty
          · exact absurd hr (by simp [hx, h1])
          by_cases h5 : txs.length > 5
          · exact absurd hr (by simp [hx, h1, h5])
          refine ⟨x0, tail, txs, rfl, hx, ?_, by omega⟩
          cases txs with
          | nil => simp at h1
          | cons a b => simp
    · rintro ⟨x0, tail, txs, hp, hx, h1, h5⟩
      subst hp
      have hemp : txs.isEmpty = false := by
        cases txs with
        | nil => simp at h1
        | cons a b => rfl
      refine ⟨x0, ?_⟩
      rw [JitoJsonRpcSDK.send_bundle_with_grpc.eq_def, hg, if_pos rfl]
      simp [hx, hemp, show ¬txs.length > 5 by omega]
  · intro x0 tail txs hp hx hempty
    subst hp hempty
    simp [JitoJsonRpcSDK.send_bundle, hx]
  · intro x0 tail txs hp hx h5
    subst hp
    have hemp : txs.isEmpty = false := by
      cases txs with
      | nil => simp at h5
      | cons a b => rfl
    simp [JitoJsonRpcSDK.send_bundle, hx, hemp, h5]
  · intro x0 tail hp hx
    subst hp
    simp [JitoJsonRpcSDK.send_bundle, hx]
  · intro hshape
    match params with
    | none => simp [JitoJsonRpcSDK.send_bundle]
    | some Json.null => simp [JitoJsonRpcSDK.send_bundle]
    | some (Json.bool b) => simp [JitoJsonRpcSDK.send_bundle]
    | some (Json.num i) => simp [JitoJsonRpcSDK.send_bundle]
    | some (Json.str s) => simp [JitoJsonRpcSDK.send_bundle]
    | some (Json.obj kvs) => simp [JitoJsonRpcSDK.send_bundle]
    | some (Json.arr []) => simp [JitoJsonRpcSDK.send_bundle]
    | some (Json.arr (x0 :: tail)) => exact absurd rfl (hshape x0 tail)

/-- C2 witness: acceptance of `[["txA","txB"], {}]`, the empty-bundle
rejection of `[[]]`, and the wrong-shape rejection of a missing parameter,
at a concrete client. -/
theorem C2_amended_validator_witness :
    (∃ r, (JitoJsonRpcSDK.mk "http://e".data none false).send_bundle
        (some (Json.arr [Json.arr [Json.str "txA".data, Json.str "txB".data], Json.obj []]))
        none = .ok r) ∧
    (JitoJsonRpcSDK.mk "http://e".data none false).send_bundle
        (some (Json.arr [Json.arr []])) none =
      .error "Bundle must contain at least one transaction".data ∧
    (JitoJsonRpcSDK.mk "http://e".data none false).send_bundle none none =
      .error "Invalid bundle format: expected [serialized_txs, options]".data := by
  refine ⟨?_, ?_, ?_⟩
  · exact (C2_amended_validator (JitoJsonRpcSDK.mk "http://e".data none false)
      (some (Json.arr [Json.arr [Json.str "txA".data, Json.str "txB".data], Json.obj []]))
      none).1.mpr
      ⟨Json.arr [Json.str "txA".data, Json.str "txB".data], [Json.obj []],
        [Json.str "txA".data, Json.str "txB".data], rfl, rfl, by simp, by simp⟩
  · exact (C2_amended_validator (JitoJsonRpcSDK.mk "http://e".data none false)
      (some (Json.arr [Json.arr []])) none).2.2.1 (Json.arr []) [] [] rfl rfl rfl
  · exact (C2_amended_validator (JitoJsonRpcSDK.mk "http://e".data none false)
      none none).2.2.2.2.2 (fun x0 tail h => by cases h)

/-- C5 counterexample: the gRPC path does not pass the options element
through — two submissions that differ only in their options forward the
identical payload, namely just the transactions array. -/
theorem C5_counterexample_grpc_drops_options :
    (JitoJsonRpcSDK.mk "http://e".data none true).send_bundle_with_grpc
        (some (Json.arr [Json.arr [Json.str "tx".data], Json.str "optA".data])) none =
      .ok (Json.arr [Json.str "tx".data]) ∧
    (JitoJsonRpcSDK.mk "http://e".data none true).send_bundle_with_grpc
        (some (Json.arr [Json.arr [Json.str "tx".data], Json.str "optB".data])) none =
      .ok (Json.arr [Json.str "tx".data]) ∧
    Json.str "optA".data ≠ Json.str "optB".data := by
  refine ⟨rfl, rfl, ?_⟩
  intro h
  simp [Json.str.injEq] at h

/-- C5 (amended): for parameters that pass validation, the JSON-RPC path
forwards the whole outer array — the options element and any further
elements unmodified, inside the posted `params` — while the gRPC path
forwards only the first element (the transactions array) and drops the
options. -/
theorem C5_amended_options_passthrough (sdk : JitoJsonRpcSDK) (x0 : Json)
    (tail : List Json) (uuid : Option (List Char)) (txs : List Json)
    (hx : x0.asArray = some txs) (h1 : 1 ≤ txs.length) (h5 : txs.length ≤ 5) :
    sdk.send_bundle (some (Json.arr (x0 :: tail))) uuid =
      .ok (sdk.send_request
        (match uuid with
         | some u => "/bundles?uuid=".data ++ u
         | none => "/bundles".data) "sendBundle".data
        (some (Json.arr (x0 :: tail)))) ∧
    (sdk.grpc_enabled = true →
      sdk.send_bundle_with_grpc (some (Json.arr (x0 :: tail))) uuid = .ok x0) := by
  have hemp : txs.isEmpty = false := by
    cases txs with
    | nil => simp at h1
    | cons a b => rfl
  constructor
  · simp [JitoJsonRpcSDK.send_bundle, hx, hemp, show ¬txs.length > 5 by omega]
  · intro hg
    rw [JitoJsonRpcSDK.send_bundle_with_grpc.eq_def, hg, if_pos rfl]
    simp [hx, hemp, show ¬txs.length > 5 by omega]

/-- C5 witness: a concrete validated bundle with an options object. -/
theorem C5_amended_options_passthrough_witness :
    (JitoJsonRpcSDK.mk "http://e".data none true).send_bundle
        (some (Json.arr [Json.arr [Json.str "tx".data], Json.obj []])) none =
      .ok ((JitoJsonRpcSDK.mk "http://e".data none true).send_request
        "/bundles".data "sendBundle".data
        (some (Json.arr [Json.arr [Json.str "tx".data], Json.obj []]))) ∧
    (JitoJsonRpcSDK.mk "http://e".data none true).send_bundle_with_grpc
        (some (Json.arr [Json.arr [Json.str "tx".data], Json.obj []])) none =
      .ok (Json.arr [Json.str "tx".data]) :=
  ⟨(C5_amended_options_passthrough (JitoJsonRpcSDK.mk "http://e".data none true)
      (Json.arr [Json.str "tx".data]) [Json.obj []] none [Json.str "tx".data]
      rfl (by simp) (by simp)).1,
   (C5_amended_options_passthrough (JitoJsonRpcSDK.mk "http://e".data none true)
      (Json.arr [Json.str "tx".data]) [Json.obj []] none [Json.str "tx".data]
      rfl (by simp) (by simp)).2 rfl⟩

/-- C1 witness: an always-failing environment exhausts the five attempts,
and an environment failing twice then succeeding returns the parsed payload
after 300 ms of requested sleep. -/
theorem C1_retry_wrapper_witness :
    ((GrpcClient.send_bundle ⟨fun _ => false, fun _ => none⟩).attempts = 5 ∧
      ((GrpcClient.send_bundle ⟨fun _ => false, fun _ => none⟩).outcome =
        .sendFailedAfter 5 ∨
       (GrpcClient.send_bundle ⟨fun _ => false, fun _ => none⟩).outcome =
        .notReadyAfter 5)) ∧
    GrpcClient.send_bundle
        ⟨fun i => i == 2, fun i => if i == 2 then some ['1'] else none⟩ =
      { outcome := .ok (Json.num 1), attempts := 3, sleepMs := 100 * (2 ^ 2 - 1) } :=
  ⟨C1_retry_wrapper.1 ⟨fun _ => false, fun _ => none⟩ (fun i _ => Or.inl rfl),
   C1_retry_wrapper.2 ⟨fun i => i == 2, fun i => if i == 2 then some ['1'] else none⟩
     2 ['1'] (Json.num 1) (by omega)
     (fun i hi => by interval_cases i <;> exact Or.inl rfl) rfl rfl rfl⟩

/-- C6 witness: a first-attempt success whose payload does not parse ends
immediately with the parse-failure outcome. -/
theorem C6_parse_failure_terminal_witness :
    (GrpcClient.send_bundle ⟨fun _ => true, fun _ => some ['x']⟩).outcome =
      .parseFailure ['x'] ∧
    (GrpcClient.send_bundle ⟨fun _ => true, fun _ => some ['x']⟩).attempts = 1 ∧
    (∀ n, (GrpcOutcome.parseFailure ['x'] ≠ .sendFailedAfter n) ∧
      (GrpcOutcome.parseFailure ['x'] ≠ .notReadyAfter n)) :=
  C6_parse_failure_terminal ⟨fun _ => true, fun _ => some ['x']⟩ 0 ['x'] (by omega)
    (fun i hi => absurd hi (by omega)) rfl rfl rfl
